import Mathlib

/-!
Verification of the clarify-go client SDK: the comparison/filter algebra and
the data-frame codec, as implemented in the repository sources
(views/dataframe (2022 and 2023 variants), query/filter.go, query/comparison.go,
params/resource_filter.go, fields/resource_comparison.go, fields/duration.go,
data/time.go and the reference computation in fields/timestamp_test.go).

Modelling conventions:
- Go float64 values are modelled by `GoFloat := Option ℚ`: `none` is the IEEE
  NaN sentinel and `some q` is a non-NaN value.  The code under verification
  never performs float arithmetic; it only copies values and branches on
  `math.IsNaN`, so the exact carrier of non-NaN values is irrelevant and an
  exact one keeps every definition computable.
- Go maps are modelled as association lists with no duplicate keys (the
  well-formedness predicates state the no-duplicate part where a theorem
  needs it).  Go map iteration order is unspecified; every modelled result
  is order-independent (sets are sorted, JSON objects sort their keys).
- Go slices distinguish nil from empty; where the code distinguishes them
  (json.Marshal renders a nil slice as null and an empty one as []) a slice
  is modelled as `Option (List α)` with `none` for nil.
- Go panics are modelled by `Option`-valued functions returning `none`.
-/

namespace ClarifyGo

/-- Result of the Go built-in len applied to a possibly-nil slice. -/
def glen {α : Type} : Option (List α) → Nat
  | none => 0
  | some l => l.length

/-- Elements of a possibly-nil Go slice (range iteration treats nil as empty). -/
def gslice {α : Type} : Option (List α) → List α
  | none => []
  | some l => l

/-- Association-list lookup modelling Go map access `m[k]`: the list holds at
most one entry per key for lists that model a Go map. -/
def lookupA {α β : Type} [DecidableEq α] : List (α × β) → α → Option β
  | [], _ => none
  | p :: r, k => if p.1 = k then some p.2 else lookupA r k

/-- Go map assignment `m[k] = v`: replaces the entry when the key is present,
appends otherwise. -/
def mapInsert {α β : Type} [DecidableEq α] (m : List (α × β)) (k : α) (v : β) :
    List (α × β) :=
  if (m.map Prod.fst).contains k then
    m.map (fun p => if p.1 = k then (k, v) else p)
  else
    m ++ [(k, v)]

/-- Model of Go float64: `none` is NaN, `some q` a non-NaN value. -/
abbrev GoFloat := Option ℚ

/-- Model of math.IsNaN. -/
def GoFloat.isNaN (v : GoFloat) : Bool := v.isNone

/-- Model of fields.Timestamp: microseconds since the Unix epoch, stored in an
int64.  The data-frame codec performs no arithmetic on timestamps, so they are
carried as unbounded integers there; the truncation arithmetic below applies
explicit 64-bit wrapping where Go would overflow. -/
abbrev Timestamp := Int

/-- DataSeries (views package): a map from timestamp to float64 value,
modelled as an association list. -/
abbrev DataSeries := List (Timestamp × GoFloat)

/-- DataFrame (views package): a map from series key to DataSeries. -/
abbrev DataFrame := List (String × DataSeries)

/-- RawDataFrame (views package): the dense wire form, a shared time axis plus
per-series value rows aligned index-for-index with the time axis. -/
structure RawDataFrame where
  times : List Timestamp
  series : List (String × List GoFloat)

/-- Set of every timestamp stored in any series of the frame (whether or not
the stored value is NaN), sorted ascending with duplicates removed.  This is
the time axis built inline by the 2022 DataFrame.Ordered method, whose loop
`for ts := range series` inserts every key into the set. -/
def DataFrame.allTimestamps (df : DataFrame) : List Timestamp :=
  List.insertionSort (· ≤ ·)
    (df.flatMap (fun p => p.2.map Prod.fst)).dedup

/-- Model of DataFrame.Timestamps (2023 views variant): the set of timestamps
that hold at least one non-NaN value in some series, sorted ascending with
duplicates removed (entries whose value is NaN are skipped by the loop). -/
def DataFrame.Timestamps (df : DataFrame) : List Timestamp :=
  List.insertionSort (· ≤ ·)
    (df.flatMap (fun p =>
      p.2.filterMap (fun q => if q.2.isNaN then none else some q.1))).dedup

/-- Inner loop shared by DataFrame.Ordered and DataFrame.ordered: the value
row of one series along the shared time axis.  Go reads `f, ok := series[ts]`
and appends NaN when the key is absent, the stored value otherwise; with
NaN = `none` this is exactly the join of the double option. -/
def seriesRow (times : List Timestamp) (s : DataSeries) : List GoFloat :=
  times.map (fun t => (lookupA s t).join)

/-- Model of DataFrame.Ordered (2022 views variant): time axis =
`allTimestamps` (NaN-valued entries included), one row per series. -/
def DataFrame.Ordered (df : DataFrame) : RawDataFrame :=
  let ts := df.allTimestamps
  ⟨ts, df.map (fun p => (p.1, seriesRow ts p.2))⟩

/-- Model of DataFrame.ordered (2023 views variant): time axis =
`DataFrame.Timestamps` (only timestamps carrying a non-NaN value), one row
per series. -/
def DataFrame.ordered (df : DataFrame) : RawDataFrame :=
  let ts := df.Timestamps
  ⟨ts, df.map (fun p => (p.1, seriesRow ts p.2))⟩

/-- Model of the per-series loop of RawDataFrame.DataFrame: iterate index i
ascending over `l = min(len(values), len(times))` positions (the zip truncates
exactly like the Go bound), skip NaN values, otherwise assign
`series[times[i]] = values[i]`, overwriting any previous entry. -/
def buildSeries (times : List Timestamp) (values : List GoFloat) : DataSeries :=
  (times.zip values).foldl
    (fun acc p => if p.2.isNaN then acc else mapInsert acc p.1 p.2) []

/-- Model of RawDataFrame.DataFrame (named toDataFrame here because the Go
method name coincides with the DataFrame type name): best-effort conversion of
the raw frame back to the sparse form. -/
def RawDataFrame.toDataFrame (raw : RawDataFrame) : DataFrame :=
  raw.series.map (fun p => (p.1, buildSeries raw.times p.2))

/-- Value that the converted series assigns to timestamp t: the value at the
highest index i with `times[i] = t` and a non-NaN `values[i]`, among the
indices below both lengths; defined recursively with later entries taking
precedence (the Go loop overwrites in ascending index order). -/
def lastMatch (t : Timestamp) : List (Timestamp × GoFloat) → Option GoFloat
  | [] => none
  | p :: rest =>
      (lastMatch t rest) <|>
        (if p.1 = t ∧ ¬p.2.isNaN then some p.2 else none)

/-- Well-formedness of a data frame as a model of the Go nested maps: no
duplicate series keys and no duplicate timestamps within a series. -/
def DataFrame.WF (df : DataFrame) : Prop :=
  (df.map Prod.fst).Nodup ∧ ∀ p ∈ df, (p.2.map Prod.fst).Nodup

/-- The property that every stored value of the frame is a non-NaN float. -/
def DataFrame.NoNaN (df : DataFrame) : Prop :=
  ∀ p ∈ df, ∀ q ∈ p.2, ¬q.2.isNaN

/-- Series keys of a data frame. -/
def DataFrame.keys (df : DataFrame) : List String := df.map Prod.fst

/-- Value stored for series key sid at timestamp t, if any. -/
def DataFrame.getVal (df : DataFrame) (sid : String) (t : Timestamp) :
    Option GoFloat :=
  (lookupA df sid).bind (fun s => lookupA s t)

instance : DecidablePred DataFrame.WF := fun df =>
  decidable_of_iff ((df.map Prod.fst).Nodup ∧ ∀ p ∈ df, (p.2.map Prod.fst).Nodup)
    Iff.rfl

instance : DecidablePred DataFrame.NoNaN := fun df =>
  decidable_of_iff (∀ p ∈ df, ∀ q ∈ p.2, ¬q.2.isNaN) Iff.rfl

/-- Values that callers pass to the comparison builder functions (Go `any`,
restricted here to the JSON-marshalable simple values the builders accept plus
strings/numbers; this covers every value used by the repository and claims). -/
inductive GoValue : Type
  | null : GoValue
  | boolean : Bool → GoValue
  | num : Int → GoValue
  | str : String → GoValue

/-- Minimal JSON string quoting as performed by encoding/json for the strings
occurring in this development (no character below 0x20, no <, >, &). -/
def jsonQuote (s : String) : String :=
  "\"" ++ String.join (s.toList.map (fun c =>
    if c = '\\' then "\\\\"
    else if c = '"' then "\\\""
    else String.singleton c)) ++ "\""

/-- Bytes produced by json.Marshal for a builder argument. -/
def GoValue.render : GoValue → String
  | .null => "null"
  | .boolean true => "true"
  | .boolean false => "false"
  | .num n => toString n
  | .str s => jsonQuote s

/-- Model of simpleJSON (fields/resource_comparison.go and query/comparison.go):
marshal the value and require the first byte to announce a simple JSON type;
`none` models the Go panic for other first bytes. -/
def simpleJSON (v : GoValue) : Option String :=
  let b := v.render
  match b.toList with
  | [] => none
  | c :: _ => if ("\"0123456789.tfn".toList).contains c then some b else none

/-- Model of orderedJSONType: like simpleJSON but the first byte must announce
a string or number (booleans and null are rejected with a panic). -/
def orderedJSONType (v : GoValue) : Option String :=
  let b := v.render
  match b.toList with
  | [] => none
  | c :: _ => if ("\"0123456789.".toList).contains c then some b else none

/-- Model of the opComparison struct shared by fields/resource_comparison.go
and query/comparison.go: one slot per operator key, each holding raw JSON
bytes.  In and NotIn model Go slices (`none` = nil slice), the four bound
slots model Go json.RawMessage pointers-or-nil, Regex is a plain string with
the empty string meaning unset. -/
structure OpComparison where
  In : Option (List String)
  NotIn : Option (List String)
  Greater : Option String
  GreaterOrEqual : Option String
  Less : Option String
  LessOrEqual : Option String
  Regex : String
deriving DecidableEq

/-- Zero value of the opComparison struct. -/
def OpComparison.zero : OpComparison := ⟨none, none, none, none, none, none, ""⟩

/-- Model of opComparison.normalize: a comparison that is empty, or whose only
content is In = [null], is turned into the nil pointer (`none`), the canonical
form of the equals-null comparison. -/
def OpComparison.normalize (cmp : OpComparison) : Option OpComparison :=
  let isEmptyExceptIn :=
    cmp.NotIn = none ∧ cmp.Greater = none ∧ cmp.GreaterOrEqual = none ∧
    cmp.Less = none ∧ cmp.LessOrEqual = none ∧ cmp.Regex = ""
  if isEmptyExceptIn ∧ cmp.In = none then
    none
  else if isEmptyExceptIn ∧ cmp.In = some ["null"] then
    none
  else
    some cmp

/-- Model of the Comparison wrapper: it holds a possibly-nil pointer to an
opComparison. -/
structure Comparison where
  value : Option OpComparison
deriving DecidableEq

/-- Rendering of a non-nil opComparison by json.Marshal: object keys follow
the struct field order, and omitempty drops slices of length zero (nil or
empty), nil raw messages, and the empty regex string. -/
def OpComparison.render (v : OpComparison) : String :=
  let arr : List String → String :=
    fun l => "[" ++ String.intercalate "," l ++ "]"
  let inPart := match v.In with
    | some l => if l.length > 0 then [jsonQuote "$in" ++ ":" ++ arr l] else []
    | none => []
  let ninPart := match v.NotIn with
    | some l => if l.length > 0 then [jsonQuote "$nin" ++ ":" ++ arr l] else []
    | none => []
  let bound : String → Option String → List String := fun key o =>
    match o with
    | some b => [jsonQuote key ++ ":" ++ b]
    | none => []
  let regexPart := if v.Regex = "" then [] else
    [jsonQuote "$regex" ++ ":" ++ jsonQuote v.Regex]
  "\x7b" ++ String.intercalate ","
    (inPart ++ ninPart ++ bound "$gt" v.Greater ++ bound "$gte" v.GreaterOrEqual
      ++ bound "$lt" v.Less ++ bound "$lte" v.LessOrEqual ++ regexPart)
    ++ "\x7d"

/-- Model of Comparison.MarshalJSON, which evaluates
json.Marshal(c.value.normalize()).  When c.value is the nil pointer, normalize
dereferences its nil receiver (cmp.NotIn) and the call panics: modelled as
`none`.  When c.value is non-nil, normalize may return the nil pointer, which
json.Marshal renders as the token null. -/
def Comparison.marshalJSON (c : Comparison) : Option String :=
  match c.value with
  | none => none
  | some v =>
      some (match v.normalize with
        | none => "null"
        | some w => w.render)

/-- Operator slot $in of a comparison, read through the pointer. -/
def Comparison.inSlot (c : Comparison) : Option (List String) :=
  c.value.bind (fun v => v.In)

namespace fields

/-- Model of fields.Equal: one-element In slot, normalized. -/
def Equal (v : GoValue) : Option Comparison :=
  (simpleJSON v).map (fun b =>
    ⟨OpComparison.normalize { OpComparison.zero with In := some [b] }⟩)

/-- Model of fields.NotEqual: one-element NotIn slot (not normalized). -/
def NotEqual (v : GoValue) : Option Comparison :=
  (simpleJSON v).map (fun b =>
    ⟨some { OpComparison.zero with NotIn := some [b] }⟩)

/-- Model of fields.In: collected In slot, normalized. -/
def In (elements : List GoValue) : Option Comparison :=
  (elements.mapM simpleJSON).map (fun bs =>
    ⟨OpComparison.normalize { OpComparison.zero with In := some bs }⟩)

/-- Model of fields.NotIn: the collected elements land in the NotIn slot. -/
def NotIn (elements : List GoValue) : Option Comparison :=
  (elements.mapM simpleJSON).map (fun bs =>
    ⟨some { OpComparison.zero with NotIn := some bs }⟩)

/-- Model of fields.Greater. -/
def Greater (v : GoValue) : Option Comparison :=
  (orderedJSONType v).map (fun b =>
    ⟨some { OpComparison.zero with Greater := some b }⟩)

/-- Model of fields.GreaterOrEqual. -/
def GreaterOrEqual (v : GoValue) : Option Comparison :=
  (orderedJSONType v).map (fun b =>
    ⟨some { OpComparison.zero with GreaterOrEqual := some b }⟩)

/-- Model of fields.Less. -/
def Less (v : GoValue) : Option Comparison :=
  (orderedJSONType v).map (fun b =>
    ⟨some { OpComparison.zero with Less := some b }⟩)

/-- Model of fields.LessOrEqual. -/
def LessOrEqual (v : GoValue) : Option Comparison :=
  (orderedJSONType v).map (fun b =>
    ⟨some { OpComparison.zero with LessOrEqual := some b }⟩)

/-- Model of fields.Range: both the GreaterOrEqual and Less slots. -/
def Range (gte lt : GoValue) : Option Comparison := do
  let bg ← orderedJSONType gte
  let bl ← orderedJSONType lt
  pure ⟨some { OpComparison.zero with GreaterOrEqual := some bg, Less := some bl }⟩

/-- Model of fields.Regex: stores the pattern verbatim. -/
def Regex (pattern : String) : Comparison :=
  ⟨some { OpComparison.zero with Regex := pattern }⟩

end fields

namespace query

/-- Model of query.NotIn as written in query/comparison.go: the collected
elements are stored in the In field of the opComparison struct (the field
named In, serialized under $in), not in NotIn. -/
def NotIn (elements : List GoValue) : Option Comparison :=
  (elements.mapM simpleJSON).map (fun bs =>
    ⟨some { OpComparison.zero with In := some bs }⟩)

end query

/-- Single merge step of MergeOperators (fields/resource_comparison.go; the
identical loop body appears as MultiOperator in query/comparison.go): a nil
comparison value forces In to [null]; otherwise every populated slot of the
argument overwrites the target slot. -/
def mergeStep (target : OpComparison) (c : Comparison) : OpComparison :=
  match c.value with
  | none => { target with In := some ["null"] }
  | some v =>
      let t := if glen v.In > 0 then { target with In := v.In } else target
      let t := if glen v.NotIn > 0 then { t with NotIn := v.NotIn } else t
      let t := match v.Greater with
        | some b => { t with Greater := some b }
        | none => t
      let t := match v.GreaterOrEqual with
        | some b => { t with GreaterOrEqual := some b }
        | none => t
      let t := match v.Less with
        | some b => { t with Less := some b }
        | none => t
      let t := match v.LessOrEqual with
        | some b => { t with LessOrEqual := some b }
        | none => t
      if v.Regex ≠ "" then { t with Regex := v.Regex } else t

/-- Accumulated target of the MergeOperators loop over the argument list. -/
def mergeTarget (cmps : List Comparison) : OpComparison :=
  cmps.foldl mergeStep OpComparison.zero

/-- Model of fields.MergeOperators: fold the arguments into one opComparison
and normalize the result. -/
def MergeOperators (cmps : List Comparison) : Comparison :=
  ⟨(mergeTarget cmps).normalize⟩

/-- Model of ResourceFilter (params/resource_filter.go; query.Filter in
query/filter.go is structurally identical): and/or hold possibly-nil slices of
sub-filters, paths holds the leaf comparisons by field path. -/
inductive RFilter : Type
  | mk (fAnd fOr : Option (List RFilter)) (paths : List (String × Comparison))

/-- Field and of a filter (the AND children slice). -/
def RFilter.and : RFilter → Option (List RFilter)
  | .mk a _ _ => a

/-- Field or of a filter (the OR children slice). -/
def RFilter.or : RFilter → Option (List RFilter)
  | .mk _ o _ => o

/-- Field paths of a filter (the leaf comparisons). -/
def RFilter.paths : RFilter → List (String × Comparison)
  | .mk _ _ p => p

/-- Model of params.FilterAll: the zero-value filter (all slices nil). -/
def RFilter.filterAll : RFilter := .mk none none []

/-- Model of ResourceFilter.matchAll: every part has length zero. -/
def RFilter.matchAll (f : RFilter) : Bool :=
  glen f.and == 0 && glen f.or == 0 && f.paths.length == 0

/-- Model of fields.CompareField(path, cmp).filter() (and of query.Field): a
leaf filter with a single path entry. -/
def compareFieldFilter (path : String) (cmp : Comparison) : RFilter :=
  .mk none none [(path, cmp)]

/-- Loop of params.Or over the remaining arguments, carrying the collected or
list.  A match-all argument short-circuits the whole call to the zero-value
filter; an argument with no and-children and no paths has its or-children
flattened into the list; any other argument is appended as-is.  At the end a
one-element or list simplifies to its element. -/
def orLoop : List RFilter → List RFilter → RFilter
  | [], acc =>
      match acc with
      | [f] => f
      | _ => .mk none (some acc) []
  | f :: rest, acc =>
      if f.matchAll then
        .mk none none []
      else if glen f.and == 0 && f.paths.length == 0 then
        orLoop rest (acc ++ gslice f.or)
      else
        orLoop rest (acc ++ [f])

/-- Model of params.Or: merge the filters with logical OR (the loop starts
from the empty, non-nil or slice created by make). -/
def Or (filters : List RFilter) : RFilter := orLoop filters []

/-- Loop of query.Or (query/filter.go): unlike the params variant it has no
match-all case, so a match-all argument falls into the flattening branch,
which appends its (empty) or list and thereby drops it from the result. -/
def queryOrLoop : List RFilter → List RFilter → RFilter
  | [], acc =>
      match acc with
      | [f] => f
      | _ => .mk none (some acc) []
  | f :: rest, acc =>
      if glen f.and == 0 && f.paths.length == 0 then
        queryOrLoop rest (acc ++ gslice f.or)
      else
        queryOrLoop rest (acc ++ [f])

/-- Model of query.Or: merge the filters with logical OR, without the
match-all short-circuit of the params variant. -/
def queryOr (filters : List RFilter) : RFilter := queryOrLoop filters []

/-- Failure modes of Filter marshalling: a path that starts with the reserved
$ byte is returned as an error; a comparison whose value pointer is nil makes
Comparison.MarshalJSON panic. -/
inductive MErr : Type
  | pathOpError : String → MErr
  | panicked : MErr
deriving DecidableEq

/-- Test applied by Filter.MarshalJSON to each path key: Go evaluates
strings.HasPrefix(k, "$"), which for this one-byte prefix is exactly a first
character test (written on the character list to keep it kernel-reducible). -/
def startsWithDollar (s : String) : Bool :=
  match s.toList with
  | [] => false
  | c :: _ => c = '$'

/-- Path entries of the raw-message map built by Filter.MarshalJSON: error on
a path with the reserved $ prefix, otherwise marshal the comparison. -/
def marshalPaths : List (String × Comparison) →
    Except MErr (List (String × String))
  | [] => .ok []
  | p :: rest =>
      if startsWithDollar p.1 then
        .error (.pathOpError p.1)
      else
        match p.2.marshalJSON with
        | none => .error .panicked
        | some s => (marshalPaths rest).map (fun l => (p.1, s) :: l)

/-- Model of json.Marshal applied to the map[string]json.RawMessage built by
Filter.MarshalJSON: keys are sorted byte-wise and raw values are spliced. -/
def marshalRawMap (m : List (String × String)) : String :=
  "\x7b" ++ String.intercalate ","
    ((List.insertionSort (fun a b : String × String => a.1 ≤ b.1) m).map
      (fun p => jsonQuote p.1 ++ ":" ++ p.2))
    ++ "\x7d"

mutual

/-- Model of ResourceFilter.MarshalJSON (params/resource_filter.go; the same
code appears as Filter.MarshalJSON in query/filter.go): build a raw-message
map from the paths, add key $and when the and slice is non-empty, add key $or
when the or slice is non-empty — whose value the source computes as
json.Marshal(f.and), not of f.or — and marshal the map. -/
def RFilter.marshalJSON : RFilter → Except MErr String
  | .mk fa fo ps => do
      let pathEntries ← marshalPaths ps
      let andEntries ←
        if glen fa > 0 then do
          let s ← marshalSlice fa
          pure [("$and", s)]
        else
          pure ([] : List (String × String))
      let orEntries ←
        if glen fo > 0 then do
          let s ← marshalSlice fa
          pure [("$or", s)]
        else
          pure ([] : List (String × String))
      pure (marshalRawMap (pathEntries ++ andEntries ++ orEntries))

/-- Model of json.Marshal applied to a []ResourceFilter slice: nil renders as
null, otherwise a JSON array of the marshalled elements. -/
def marshalSlice : Option (List RFilter) → Except MErr String
  | none => .ok "null"
  | some l => (marshalList l).map
      (fun ss => "[" ++ String.intercalate "," ss ++ "]")

/-- Elementwise marshalling of a list of filters. -/
def marshalList : List RFilter → Except MErr (List String)
  | [] => .ok []
  | f :: rest => do
      let s ← f.marshalJSON
      let ss ← marshalList rest
      pure (s :: ss)

end

/-- Nanoseconds in a second (Go time.Second). -/
def nsSecond : Int := 1000000000

/-- Nanoseconds in a minute (Go time.Minute). -/
def nsMinute : Int := 60000000000

/-- Nanoseconds in an hour (Go time.Hour). -/
def nsHour : Int := 3600000000000

/-- Decimal digits of a natural number left-padded with zeros to width 9. -/
def padNine (n : Nat) : String :=
  let s := toString n
  String.mk (List.replicate (9 - s.length) '0') ++ s

/-- Seconds-with-fraction part written by formatFixedDuration for a remainder
0 < d < nsMinute: Go formats float64(d)/1e9 with strconv.FormatFloat(f, -1),
the shortest decimal that round-trips the float; for these magnitudes (at
most 11 significant digits) that is exactly the decimal expansion of d/1e9
with trailing zeros removed. -/
def secondsString (d : Int) : String :=
  let ip := d / nsSecond
  let frac := (d % nsSecond).toNat
  if frac = 0 then
    toString ip
  else
    toString ip ++ "." ++
      String.mk (((padNine frac).toList.reverse.dropWhile (· = '0')).reverse)

/-- Model of formatFixedDuration (fields/duration.go): hours, minutes and a
fractional seconds component, each emitted only when positive; the zero
duration therefore renders as the bare prefix PT. -/
def formatFixedDuration (d : Int) : String :=
  let p := if d < 0 then ("-PT", -d) else ("PT", d)
  let p := if p.2 / nsHour > 0
    then (p.1 ++ toString (p.2 / nsHour) ++ "H", p.2 % nsHour) else p
  let p := if p.2 / nsMinute > 0
    then (p.1 ++ toString (p.2 / nsMinute) ++ "M", p.2 % nsMinute) else p
  if p.2 > 0 then p.1 ++ secondsString p.2 ++ "S" else p.1

/-- JSON encoding of fields.FixedDuration, which marshals through MarshalText
and therefore always yields a JSON string. -/
def FixedDuration.marshalJSON (d : Int) : String :=
  jsonQuote (formatFixedDuration d)

/-- Model of fields.FixedDurationNullZero.MarshalJSON: the zero duration
encodes to the token null, anything else to the formatted string. -/
def FixedDurationNullZero.marshalJSON (d : Int) : String :=
  if d = 0 then "null" else jsonQuote (formatFixedDuration d)

/-- Model of fields.CalendarDuration: whole months plus a fixed duration in
nanoseconds; setting both is an encoding error. -/
structure CalendarDuration where
  months : Int
  duration : Int
deriving DecidableEq

/-- Model of formatCalendarDuration (fields/duration.go): mixing months and a
fixed duration is an error; months render as years and months; a pure fixed
duration renders via formatFixedDuration; the all-zero value renders as PT0S. -/
def formatCalendarDuration (cd : CalendarDuration) : Except String String :=
  if cd.months ≠ 0 ∧ cd.duration ≠ 0 then
    .error "cant specify both months and duration"
  else if cd.months ≠ 0 then
    let p := if cd.months < 0 then ("-P", -cd.months) else ("P", cd.months)
    let p := if p.2 / 12 > 0
      then (p.1 ++ toString (p.2 / 12) ++ "Y", p.2 % 12) else p
    .ok (if p.2 > 0 then p.1 ++ toString p.2 ++ "M" else p.1)
  else if cd.duration ≠ 0 then
    .ok (formatFixedDuration cd.duration)
  else
    .ok "PT0S"

/-- JSON encoding of fields.CalendarDuration, which marshals through
MarshalText and therefore yields a JSON string whenever formatting succeeds. -/
def CalendarDuration.marshalJSON (cd : CalendarDuration) :
    Except String String :=
  (formatCalendarDuration cd).map jsonQuote

/-- Model of fields.CalendarDurationNullZero.MarshalJSON: the zero value
encodes to the token null. -/
def CalendarDurationNullZero.marshalJSON (cd : CalendarDuration) :
    Except String String :=
  if cd.duration = 0 ∧ cd.months = 0 then .ok "null"
  else (formatCalendarDuration cd).map jsonQuote

/-- Two-complement wrap of an integer into the int64 range, applied where the
Go code can overflow. -/
def wrap64 (x : Int) : Int := (x + 2 ^ 63) % 2 ^ 64 - 2 ^ 63

/-- Model of data.OriginTime: 2000-01-03T00:00:00Z in microseconds since the
Unix epoch. -/
def OriginTime : Int := 946857600000000

/-- Model of data.Timestamp.Truncate (data/time.go; the same formula appears
in the data package twin taking a time.Duration): r := (ts - OriginTime) % d
with the Go truncated remainder, result ts - r.  Subtractions wrap in int64;
Int.tmod matches the Go % operator including on negative operands. -/
def dataTruncate (ts d : Int) : Int :=
  if d = 0 then ts
  else wrap64 (ts - Int.tmod (wrap64 (ts - OriginTime)) d)

/-- Model of the reference computation compareTimestampTruncateCustom in
fields/timestamp_test.go, with td the bucket width in microseconds: truncated
division toward zero followed by a decrement for negative non-exact offsets,
which is floor division measured from the origin. -/
def customExpected (ts td : Int) : Int :=
  if td > 0 then
    let tsRel := wrap64 (ts - OriginTime)
    let m := Int.tdiv tsRel td
    let m := if tsRel < 0 ∧ Int.tmod tsRel td ≠ 0 then m - 1 else m
    wrap64 (OriginTime + wrap64 (td * m))
  else ts

/-- Formula stated by the claim: OriginTime plus d times the floor of the
relative offset divided by d. -/
def truncFloorFromOrigin (ts d : Int) : Int :=
  OriginTime + d * Int.fdiv (ts - OriginTime) d

/-- Minimal JSON document model: enough structure to express what the Go
encoding/json package produces for the data-frame wire form. -/
inductive Json : Type
  | null : Json
  | num : ℚ → Json
  | str : String → Json
  | arr : List Json → Json
  | obj : List (String × Json) → Json

/-- Modelled from the spec: the JSON form of a fields.Timestamp inside the
wire object (the fields.Timestamp implementation is not part of the sources;
the specification gives the wire shape times: [<int64>, ...], so a timestamp
is carried as an integral JSON number). -/
def timestampToJson (t : Timestamp) : Json := .num (t : ℚ)

/-- Modelled from the spec: decoding of a fields.Timestamp from its JSON form;
a non-integral or non-numeric value is a decoding error. -/
def timestampOfJson : Json → Option Timestamp
  | .num q => if q.den = 1 then some q.num else none
  | _ => none

/-- Model of fields.Number.MarshalJSON: NaN encodes to the token null, any
other value to a JSON number. -/
def numberToJson (v : GoFloat) : Json :=
  match v with
  | none => .null
  | some q => .num q

/-- Model of fields.Number.UnmarshalJSON: null decodes to NaN, a number to
itself, anything else is a decoding error. -/
def numberOfJson : Json → Option GoFloat
  | .null => some none
  | .num q => some (some q)
  | _ => none

/-- JSON document produced by json.Marshal for a RawDataFrame: an object with
the times array and the series object. -/
def rawToJson (raw : RawDataFrame) : Json :=
  .obj [("times", .arr (raw.times.map timestampToJson)),
        ("series", .obj (raw.series.map
          (fun p => (p.1, .arr (p.2.map numberToJson)))))]

/-- Sequencing of an option-valued decoder over a list, failing on the first
failure (the effect of json.Unmarshal over an array). -/
def decodeEach {α β : Type} (f : α → Option β) : List α → Option (List β)
  | [] => some []
  | a :: rest => do
      let b ← f a
      let bs ← decodeEach f rest
      pure (b :: bs)

/-- Decoding of one series binding: json.Unmarshal into a []Number leaves a
nil slice on null and errors on any non-array value. -/
def decodeSeriesEntry (p : String × Json) : Option (String × List GoFloat) :=
  match p.2 with
  | .null => some (p.1, [])
  | .arr xs => (decodeEach numberOfJson xs).map (fun vs => (p.1, vs))
  | _ => none

/-- Decoding of a RawDataFrame by json.Unmarshal: the document must be an
object; a missing or null field leaves the zero value; the times field must
be an array of timestamps and the series field an object of value arrays.
Objects with duplicate keys never arise from the encoder; the first binding
is used here. -/
def jsonToRaw : Json → Option RawDataFrame
  | .obj fs => do
      let times ← match lookupA fs "times" with
        | none => some []
        | some .null => some []
        | some (.arr xs) => decodeEach timestampOfJson xs
        | some _ => none
      let series ← match lookupA fs "series" with
        | none => some ([] : List (String × List GoFloat))
        | some .null => some []
        | some (.obj es) => decodeEach decodeSeriesEntry es
        | some _ => none
      pure ⟨times, series⟩
  | _ => none

/-- Model of DataFrame.MarshalJSON (2022 views variant, as cited by the
round-trip claim): marshal the Ordered raw frame. -/
def DataFrame.marshalJSON (df : DataFrame) : Json :=
  rawToJson df.Ordered

/-- Model of DataFrame.UnmarshalJSON: decode a raw frame, then convert it at
best effort. -/
def DataFrame.unmarshalJSON (j : Json) : Option DataFrame :=
  (jsonToRaw j).map RawDataFrame.toDataFrame

section Lemmas

variable {α β γ : Type}

theorem orElse_assoc (a b c : Option α) :
    ((a <|> b) <|> c) = (a <|> (b <|> c)) := by
  cases a <;> simp

theorem lookupA_eq_some_mem [DecidableEq α] {l : List (α × β)} {k : α} {v : β}
    (h : lookupA l k = some v) : (k, v) ∈ l := by
  induction l with
  | nil => simp [lookupA] at h
  | cons p rest ih =>
      by_cases hpk : p.1 = k
      · simp only [lookupA, if_pos hpk] at h
        have hp : p = (k, v) := Prod.ext hpk (Option.some.inj h)
        exact hp ▸ List.mem_cons_self _ _
      · simp only [lookupA, if_neg hpk] at h
        exact List.mem_cons_of_mem _ (ih h)

theorem lookupA_isSome_iff [DecidableEq α] {l : List (α × β)} {k : α} :
    (lookupA l k).isSome ↔ k ∈ l.map Prod.fst := by
  induction l with
  | nil => simp [lookupA]
  | cons p rest ih =>
      by_cases hpk : p.1 = k
      · simp [lookupA, hpk]
      · simp [lookupA, hpk, ih, Ne.symm hpk]

theorem lookupA_eq_none [DecidableEq α] {l : List (α × β)} {k : α}
    (h : k ∉ l.map Prod.fst) : lookupA l k = none := by
  have := (not_iff_not.mpr (lookupA_isSome_iff (l := l) (k := k))).mpr h
  cases hv : lookupA l k with
  | none => rfl
  | some v => rw [hv] at this; simp at this

theorem mem_lookupA_of_nodup [DecidableEq α] {l : List (α × β)} {k : α} {v : β}
    (hnd : (l.map Prod.fst).Nodup) (h : (k, v) ∈ l) : lookupA l k = some v := by
  induction l with
  | nil => simp at h
  | cons p rest ih =>
      simp only [List.map_cons, List.nodup_cons] at hnd
      rcases List.mem_cons.mp h with h1 | h1
      · subst h1
        simp [lookupA]
      · have hpk : p.1 ≠ k := by
          intro he
          exact hnd.1 (he ▸ List.mem_map.mpr ⟨(k, v), h1, rfl⟩)
        simp only [lookupA, if_neg hpk]
        exact ih hnd.2 h1

theorem lookupA_append [DecidableEq α] (l₁ l₂ : List (α × β)) (k : α) :
    lookupA (l₁ ++ l₂) k = (lookupA l₁ k <|> lookupA l₂ k) := by
  induction l₁ with
  | nil => simp [lookupA]
  | cons p rest ih =>
      by_cases hpk : p.1 = k
      · simp [lookupA, hpk]
      · simp [lookupA, hpk, ih]

theorem lookupA_map_val [DecidableEq α] (l : List (α × β)) (f : β → γ) (k : α) :
    lookupA (l.map (fun p => (p.1, f p.2))) k = (lookupA l k).map f := by
  induction l with
  | nil => simp [lookupA]
  | cons p rest ih =>
      by_cases hpk : p.1 = k
      · simp [lookupA, hpk]
      · simp [lookupA, hpk, ih]

theorem lookupA_mapReplace_ne [DecidableEq α] (l : List (α × β)) {k k' : α}
    (v : β) (hne : k' ≠ k) :
    lookupA (l.map (fun p => if p.1 = k then (k, v) else p)) k' = lookupA l k' := by
  induction l with
  | nil => simp [lookupA]
  | cons p rest ih =>
      by_cases hpk : p.1 = k
      · simp [lookupA, hpk, Ne.symm hne, hne, ih]
      · by_cases hpk2 : p.1 = k'
        · simp [lookupA, hpk, hpk2, hne]
        · simp [lookupA, hpk, hpk2, hne, ih]

theorem lookupA_mapReplace_mem [DecidableEq α] {l : List (α × β)} {k : α}
    (v : β) (hmem : k ∈ l.map Prod.fst) :
    lookupA (l.map (fun p => if p.1 = k then (k, v) else p)) k = some v := by
  induction l with
  | nil => simp at hmem
  | cons p rest ih =>
      by_cases hpk : p.1 = k
      · simp [lookupA, hpk]
      · have : k ∈ rest.map Prod.fst := by
          rcases List.mem_map.mp hmem with ⟨q, hq, hq2⟩
          rcases List.mem_cons.mp hq with h1 | h1
          · exact absurd (h1 ▸ hq2) hpk
          · exact List.mem_map.mpr ⟨q, h1, hq2⟩
        simp [lookupA, hpk, ih this]

theorem mapInsert_lookupA [DecidableEq α] (m : List (α × β)) (k k' : α) (v : β) :
    lookupA (mapInsert m k v) k' = if k' = k then some v else lookupA m k' := by
  unfold mapInsert
  by_cases hc : (m.map Prod.fst).contains k
  · have hmem : k ∈ m.map Prod.fst := by
      simpa using hc
    rw [if_pos hc]
    by_cases hk : k' = k
    · subst hk
      simp [lookupA_mapReplace_mem v hmem]
    · simp [lookupA_mapReplace_ne m v hk, hk]
  · rw [if_neg hc]
    have hmem : k ∉ m.map Prod.fst := by
      simpa using hc
    by_cases hk : k' = k
    · subst hk
      simp [lookupA_append, lookupA_eq_none hmem, lookupA]
    · simp [lookupA_append, lookupA, Ne.symm hk, hk]

theorem buildSeries_loop (l : List (Timestamp × GoFloat)) (acc : DataSeries)
    (t : Timestamp) :
    lookupA (l.foldl
      (fun acc p => if p.2.isNaN then acc else mapInsert acc p.1 p.2) acc) t =
      (lastMatch t l <|> lookupA acc t) := by
  induction l generalizing acc with
  | nil => simp [lastMatch]
  | cons p rest ih =>
      rw [List.foldl_cons, ih, lastMatch, orElse_assoc]
      congr 1
      by_cases hnan : p.2.isNaN
      · simp [hnan]
      · rw [if_neg hnan, mapInsert_lookupA]
        by_cases hpt : p.1 = t
        · simp [hpt, hnan]
        · simp [hpt, hnan, Ne.symm hpt]

theorem buildSeries_lookupA (times : List Timestamp) (values : List GoFloat)
    (t : Timestamp) :
    lookupA (buildSeries times values) t = lastMatch t (times.zip values) := by
  rw [buildSeries, buildSeries_loop]
  simp [lookupA]

theorem zip_self_map (l : List α) (f : α → β) :
    l.zip (l.map f) = l.map (fun a => (a, f a)) := by
  have h := List.zip_map' (id : α → α) f l
  simpa using h

theorem lastMatch_map_nodup {T : List Timestamp} (hnd : T.Nodup)
    (g : Timestamp → GoFloat) (t : Timestamp) :
    lastMatch t (T.map (fun u => (u, g u))) =
      if t ∈ T ∧ ¬(g t).isNaN then some (g t) else none := by
  induction T with
  | nil => simp [lastMatch]
  | cons u rest ih =>
      simp only [List.nodup_cons] at hnd
      rw [List.map_cons, lastMatch, ih hnd.2]
      by_cases hut : u = t
      · subst hut
        have : u ∉ rest := hnd.1
        by_cases hg : (g u).isNaN
        · simp [this, hg]
        · simp [this, hg]
      · by_cases hmem : t ∈ rest
        · by_cases hg : (g t).isNaN
          · simp [hmem, hut, hg]
          · simp [hmem, hut, hg, Ne.symm hut]
        · simp [hmem, hut, Ne.symm hut]

theorem mem_allTimestamps {df : DataFrame} {t : Timestamp} :
    t ∈ df.allTimestamps ↔ ∃ p ∈ df, t ∈ p.2.map Prod.fst := by
  unfold DataFrame.allTimestamps
  rw [(List.perm_insertionSort _ _).mem_iff, List.mem_dedup, List.mem_flatMap]

theorem allTimestamps_nodup (df : DataFrame) : df.allTimestamps.Nodup :=
  (List.perm_insertionSort _ _).nodup_iff.mpr (List.nodup_dedup _)

theorem mem_Timestamps {df : DataFrame} {t : Timestamp} :
    t ∈ df.Timestamps ↔ ∃ p ∈ df, ∃ v, (t, v) ∈ p.2 ∧ ¬v.isNaN := by
  unfold DataFrame.Timestamps
  rw [(List.perm_insertionSort _ _).mem_iff, List.mem_dedup, List.mem_flatMap]
  constructor
  · rintro ⟨p, hp, hmem⟩
    rcases List.mem_filterMap.mp hmem with ⟨q, hq, hqe⟩
    by_cases hnan : q.2.isNaN
    · simp [hnan] at hqe
    · refine ⟨p, hp, q.2, ?_, hnan⟩
      simp only [hnan, Bool.false_eq_true, if_neg] at hqe
      have : q.1 = t := by simpa using hqe
      exact this ▸ (Prod.mk.eta ▸ hq)
  · rintro ⟨p, hp, v, hv, hnan⟩
    refine ⟨p, hp, List.mem_filterMap.mpr ⟨(t, v), hv, ?_⟩⟩
    simp [hnan]

theorem Timestamps_nodup (df : DataFrame) : df.Timestamps.Nodup :=
  (List.perm_insertionSort _ _).nodup_iff.mpr (List.nodup_dedup _)

theorem Timestamps_sorted (df : DataFrame) :
    List.Sorted (· ≤ ·) df.Timestamps :=
  List.sorted_insertionSort _ _

theorem decodeEach_map_some {α β : Type} (l : List α) (f : α → β)
    (g : β → Option α) (h : ∀ a ∈ l, g (f a) = some a) :
    decodeEach g (l.map f) = some l := by
  induction l with
  | nil => rfl
  | cons a rest ih =>
      rw [List.map_cons, decodeEach, h a (List.mem_cons_self _ _),
        ih (fun b hb => h b (List.mem_cons_of_mem _ hb))]
      rfl

theorem jsonToRaw_rawToJson (raw : RawDataFrame) :
    jsonToRaw (rawToJson raw) = some raw := by
  obtain ⟨times, series⟩ := raw
  have htimes : decodeEach timestampOfJson (times.map timestampToJson) =
      some times := by
    refine decodeEach_map_some _ _ _ (fun t _ => ?_)
    simp [timestampToJson, timestampOfJson, Rat.den_intCast, Rat.num_intCast]
  have hseries :
      decodeEach decodeSeriesEntry
          (series.map (fun p => (p.1, Json.arr (p.2.map numberToJson)))) =
        some series := by
    refine decodeEach_map_some _ _ _ (fun p _ => ?_)
    have hvals : decodeEach numberOfJson (p.2.map numberToJson) = some p.2 := by
      refine decodeEach_map_some _ _ _ (fun v _ => ?_)
      cases v <;> rfl
    simp [decodeSeriesEntry, hvals]
  simp [rawToJson, jsonToRaw, lookupA, htimes, hseries]

theorem roundtrip_series (T : List Timestamp) (s : DataSeries)
    (hT : T.Nodup) (hsub : ∀ t ∈ s.map Prod.fst, t ∈ T)
    (hnn : ∀ q ∈ s, ¬q.2.isNaN) (t : Timestamp) :
    lookupA (buildSeries T (seriesRow T s)) t = lookupA s t := by
  rw [buildSeries_lookupA, seriesRow, zip_self_map,
    lastMatch_map_nodup hT (fun u => (lookupA s u).join) t]
  cases hv : lookupA s t with
  | some v =>
      have hmem : (t, v) ∈ s := lookupA_eq_some_mem hv
      have hnan : ¬v.isNaN := hnn (t, v) hmem
      have hTt : t ∈ T := hsub t (List.mem_map.mpr ⟨(t, v), hmem, rfl⟩)
      simp [hTt, hnan]
  | none =>
      simp [GoFloat.isNaN]

theorem ordered_toDataFrame_lookup (df : DataFrame) (sid : String) :
    lookupA (df.Ordered).toDataFrame sid =
      (lookupA df sid).map
        (fun s => buildSeries df.allTimestamps (seriesRow df.allTimestamps s)) := by
  have hmm : (df.Ordered).toDataFrame =
      df.map (fun p =>
        (p.1, buildSeries df.allTimestamps (seriesRow df.allTimestamps p.2))) := by
    rw [RawDataFrame.toDataFrame, DataFrame.Ordered, List.map_map]
    rfl
  rw [hmm, lookupA_map_val df
    (fun s => buildSeries df.allTimestamps (seriesRow df.allTimestamps s)) sid]

set_option maxHeartbeats 1000000 in
theorem mergeStep_In (t : OpComparison) (c : Comparison) :
    (mergeStep t c).In =
      match c.value with
      | none => some ["null"]
      | some v => if glen v.In > 0 then v.In else t.In := by
  obtain ⟨cv⟩ := c
  cases cv with
  | none => rfl
  | some v =>
      obtain ⟨vIn, vNin, vG, vGE, vL, vLE, vR⟩ := v
      simp only [mergeStep]
      cases vG <;> cases vGE <;> cases vL <;> cases vLE <;>
        by_cases hR : vR ≠ "" <;> by_cases hNin : glen vNin > 0 <;>
        by_cases hIn : glen vIn > 0 <;>
        simp [hR, hNin, hIn]

theorem mergeFold_In_preserved (l : List Comparison) (t : OpComparison)
    (hIn : t.In = some ["null"])
    (h : ∀ c ∈ l, c.value = none ∨ ∃ v, c.value = some v ∧ glen v.In = 0) :
    (l.foldl mergeStep t).In = some ["null"] := by
  induction l generalizing t with
  | nil => exact hIn
  | cons c rest ih =>
      rw [List.foldl_cons]
      refine ih _ ?_ (fun d hd => h d (List.mem_cons_of_mem _ hd))
      rcases h c (List.mem_cons_self _ _) with hc | ⟨v, hv, hglen⟩
      · rw [mergeStep_In, hc]
      · rw [mergeStep_In, hv]
        simp [hglen, hIn]

end Lemmas

/-- C1: for a well-formed DataFrame whose stored values are all non-NaN,
serializing with MarshalJSON and deserializing with UnmarshalJSON yields a
DataFrame equal to the original: the same series keys, and for every series
key and timestamp exactly the same stored value (no entries added, removed,
or altered). -/
theorem claim_C1_dataframe_roundtrip (df : DataFrame) (_hwf : df.WF)
    (hnn : df.NoNaN) :
    ∃ out, DataFrame.unmarshalJSON df.marshalJSON = some out ∧
      out.keys = df.keys ∧ ∀ sid t, out.getVal sid t = df.getVal sid t := by
  refine ⟨(df.Ordered).toDataFrame, ?_, ?_, ?_⟩
  · rw [DataFrame.marshalJSON, DataFrame.unmarshalJSON, jsonToRaw_rawToJson]
    rfl
  · rw [DataFrame.keys, DataFrame.keys, RawDataFrame.toDataFrame,
      DataFrame.Ordered, List.map_map, List.map_map]
    rfl
  · intro sid t
    rw [DataFrame.getVal, DataFrame.getVal, ordered_toDataFrame_lookup]
    cases hv : lookupA df sid with
    | none => rfl
    | some s =>
        have hmem : (sid, s) ∈ df := lookupA_eq_some_mem hv
        have hsub : ∀ u ∈ s.map Prod.fst, u ∈ df.allTimestamps := by
          intro u hu
          exact mem_allTimestamps.mpr ⟨(sid, s), hmem, hu⟩
        have hs : ∀ q ∈ s, ¬q.2.isNaN := fun q hq => hnn (sid, s) hmem q hq
        simpa using roundtrip_series df.allTimestamps s
          (allTimestamps_nodup df) hsub hs t

/-- Witness for C1 at a concrete two-series frame. -/
theorem claim_C1_dataframe_roundtrip_witness :
    DataFrame.WF [("a", [((1 : Int), (some (5 : ℚ) : GoFloat)), (3, some 2)]),
        ("b", [(2, some 7)])] ∧
    DataFrame.NoNaN [("a", [((1 : Int), (some (5 : ℚ) : GoFloat)), (3, some 2)]),
        ("b", [(2, some 7)])] ∧
    (∃ out,
      DataFrame.unmarshalJSON
        (DataFrame.marshalJSON
          [("a", [((1 : Int), (some (5 : ℚ) : GoFloat)), (3, some 2)]),
           ("b", [(2, some 7)])]) = some out ∧
      out.keys = DataFrame.keys
          [("a", [((1 : Int), (some (5 : ℚ) : GoFloat)), (3, some 2)]),
           ("b", [(2, some 7)])] ∧
      ∀ sid t, out.getVal sid t = DataFrame.getVal
          [("a", [((1 : Int), (some (5 : ℚ) : GoFloat)), (3, some 2)]),
           ("b", [(2, some 7)])] sid t) :=
  ⟨by decide, by decide,
    claim_C1_dataframe_roundtrip
      [("a", [((1 : Int), (some (5 : ℚ) : GoFloat)), (3, some 2)]),
       ("b", [(2, some 7)])] (by decide) (by decide)⟩

/-- C10: the best-effort raw-to-sparse conversion maps, for each series and
timestamp, the timestamp to the value of the pair at the highest index of the
zip of the time axis with the value row (so indices at or beyond either length
are ignored) whose timestamp matches and whose value is not NaN; earlier
duplicate values are overwritten and NaN values are skipped. -/
theorem claim_C10_raw_duplicates_last_wins (raw : RawDataFrame) (sid : String)
    (t : Timestamp) :
    DataFrame.getVal raw.toDataFrame sid t =
      (lookupA raw.series sid).bind
        (fun values => lastMatch t (raw.times.zip values)) := by
  rw [DataFrame.getVal, RawDataFrame.toDataFrame, lookupA_map_val]
  cases lookupA raw.series sid with
  | none => rfl
  | some values => simp [buildSeries_lookupA]

/-- C2 fails on the code: a filter with two OR children and no AND children
marshals to an object whose $or key holds the marshalling of the nil AND
slice — the JSON token null — instead of the array of the serialized OR
sub-filters (both query/filter.go and params/resource_filter.go compute
json.Marshal(f.and) in the $or branch). -/
theorem claim_C2_or_key_holds_and_slice :
    (fields.Equal (GoValue.str "x")).map (fun cx =>
      ((Or [compareFieldFilter "a" cx, compareFieldFilter "b" cx]).or.map
          List.length,
        (Or [compareFieldFilter "a" cx,
            compareFieldFilter "b" cx]).marshalJSON)) =
      some (some 2, .ok "\x7b\"$or\":null\x7d") := rfl

/-- C3 fails on the code in query/filter.go: query.Or has no match-all case,
so Or(Filter\x7b\x7d, Field("id", Equal("a"))) drops the empty filter and
returns the field filter itself, serializing to the field object rather than
to the empty object; the params variant short-circuits to the match-all
filter for every X, which serializes to the empty object, as the claim
demands. -/
theorem claim_C3_query_or_drops_match_all :
    ((fields.Equal (GoValue.str "a")).map (fun ca =>
        (queryOr [RFilter.filterAll, compareFieldFilter "id" ca]).marshalJSON) =
      some (.ok "\x7b\"id\":\x7b\"$in\":[\"a\"]\x7d\x7d")) ∧
    ((fields.Equal (GoValue.str "a")).map (fun ca =>
        queryOr [RFilter.filterAll, compareFieldFilter "id" ca]) =
      (fields.Equal (GoValue.str "a")).map (fun ca =>
        compareFieldFilter "id" ca)) ∧
    ("\x7b\"id\":\x7b\"$in\":[\"a\"]\x7d\x7d" : String) ≠ "\x7b\x7d" ∧
    (∀ X : RFilter, Or [RFilter.filterAll, X] = RFilter.filterAll) ∧
    RFilter.filterAll.marshalJSON = .ok "\x7b\x7d" :=
  ⟨rfl, rfl, by decide, fun X => rfl, rfl⟩

/-- C4 fails as stated for the 2022 Ordered variant: in a frame whose only
stored value is NaN, the produced times axis still contains that timestamp,
although no series carries a non-NaN value there (the 2023 Timestamps axis is
empty, as the claim demands). -/
theorem claim_C4_counterexample :
    (DataFrame.Ordered [("a", [((0 : Int), (none : GoFloat))])]).times = [0] ∧
    DataFrame.Timestamps [("a", [((0 : Int), (none : GoFloat))])] = [] ∧
    (∀ p ∈ ([("a", [((0 : Int), (none : GoFloat))])] : DataFrame),
      ∀ q ∈ p.2, q.2.isNaN) ∧
    ([0] : List Timestamp) ≠ [] := by
  refine ⟨rfl, rfl, by decide, by decide⟩

/-- C4 (amended): the times axis of the 2023 ordered conversion is sorted,
duplicate-free, and contains exactly the timestamps that carry a non-NaN
value in at least one series; the 2022 Ordered conversion instead uses every
stored timestamp, including the ones whose only values are NaN. -/
theorem claim_C4_amended_times_axis (df : DataFrame) (hwf : df.WF) :
    List.Sorted (· ≤ ·) (df.ordered).times ∧ (df.ordered).times.Nodup ∧
    (∀ t, t ∈ (df.ordered).times ↔
      ∃ p ∈ df, ∃ v, lookupA p.2 t = some v ∧ ¬v.isNaN) ∧
    (∀ t, t ∈ (df.Ordered).times ↔ ∃ p ∈ df, t ∈ p.2.map Prod.fst) := by
  refine ⟨Timestamps_sorted df, Timestamps_nodup df, fun t => ?_,
    fun t => mem_allTimestamps⟩
  rw [show (df.ordered).times = df.Timestamps from rfl, mem_Timestamps]
  constructor
  · rintro ⟨p, hp, v, hv, hnan⟩
    exact ⟨p, hp, v, mem_lookupA_of_nodup (hwf.2 p hp) hv, hnan⟩
  · rintro ⟨p, hp, v, hv, hnan⟩
    exact ⟨p, hp, v, lookupA_eq_some_mem hv, hnan⟩

/-- Witness for the amended C4 at a concrete frame holding one NaN and one
non-NaN entry. -/
theorem claim_C4_amended_times_axis_witness :
    DataFrame.WF [("a", [((5 : Int), (some (1 : ℚ) : GoFloat)), (0, none)])] ∧
    (List.Sorted (· ≤ ·)
        (DataFrame.ordered
          [("a", [((5 : Int), (some (1 : ℚ) : GoFloat)), (0, none)])]).times ∧
      (DataFrame.ordered
          [("a", [((5 : Int), (some (1 : ℚ) : GoFloat)), (0, none)])]).times.Nodup ∧
      (∀ t, t ∈ (DataFrame.ordered
            [("a", [((5 : Int), (some (1 : ℚ) : GoFloat)), (0, none)])]).times ↔
        ∃ p ∈ ([("a", [((5 : Int), (some (1 : ℚ) : GoFloat)), (0, none)])] :
            DataFrame), ∃ v, lookupA p.2 t = some v ∧ ¬v.isNaN) ∧
      (∀ t, t ∈ (DataFrame.Ordered
            [("a", [((5 : Int), (some (1 : ℚ) : GoFloat)), (0, none)])]).times ↔
        ∃ p ∈ ([("a", [((5 : Int), (some (1 : ℚ) : GoFloat)), (0, none)])] :
            DataFrame), t ∈ p.2.map Prod.fst)) :=
  ⟨by decide,
    claim_C4_amended_times_axis
      [("a", [((5 : Int), (some (1 : ℚ) : GoFloat)), (0, none)])] (by decide)⟩

/-- C5 fails on the code in data/time.go: ninety minutes before the origin,
truncating by one hour returns OriginTime minus one hour (the Go % operator
rounds toward zero), while the floor formula of the claim — and the reference
computation of the repository test fields/timestamp_test.go — give OriginTime
minus two hours. -/
theorem claim_C5_truncate_rounds_toward_zero :
    dataTruncate 946852200000000 3600000000 = 946854000000000 ∧
    customExpected 946852200000000 3600000000 = 946850400000000 ∧
    truncFloorFromOrigin 946852200000000 3600000000 = 946850400000000 ∧
    dataTruncate 946852200000000 3600000000 ≠
      truncFloorFromOrigin 946852200000000 3600000000 := by
  refine ⟨by decide, by decide, by decide, by decide⟩

/-- C6 fails on the code in query/comparison.go: query.NotIn stores the
excluded elements in the In field, so the comparison serializes under the
$in key; the fields package variant stores them in NotIn and serializes under
$nin as the claim demands. -/
theorem claim_C6_notin_slot :
    (query.NotIn [GoValue.num 1, GoValue.num 2]).bind Comparison.marshalJSON =
      some "\x7b\"$in\":[1,2]\x7d" ∧
    (fields.NotIn [GoValue.num 1, GoValue.num 2]).bind Comparison.marshalJSON =
      some "\x7b\"$nin\":[1,2]\x7d" :=
  ⟨rfl, rfl⟩

/-- C7 fails as stated: a zero-value Comparison followed by In(1, 2) merges
to a comparison whose $in slot holds [1, 2], not the single element null —
the rightmost argument wins on the shared slot. -/
theorem claim_C7_counterexample :
    (fields.In [GoValue.num 1, GoValue.num 2]).map (fun c =>
      ((MergeOperators [⟨none⟩, c]).inSlot,
        (MergeOperators [⟨none⟩, c]).marshalJSON)) =
      some (some ["1", "2"], some "\x7b\"$in\":[1,2]\x7d") ∧
    (some ["1", "2"] : Option (List String)) ≠ some ["null"] :=
  ⟨rfl, by decide⟩

/-- C7 (amended): MergeOperators(Equal(0), In(1, 2)) serializes to the object
with $in:[1,2] (rightmost wins on the shared slot) and
MergeOperators(GreaterOrEqual(0), Less(49)) retains both disjoint slots; a
zero-value Comparison sets the merged $in slot to the single element null at
its position, and that setting persists whenever every later argument either
is itself zero-valued (re-forcing null) or leaves the $in slot empty. -/
theorem claim_C7_amended_merge_operators :
    ((fields.Equal (GoValue.num 0)).bind (fun a =>
        (fields.In [GoValue.num 1, GoValue.num 2]).map (fun b =>
          (MergeOperators [a, b]).marshalJSON))) =
      some (some "\x7b\"$in\":[1,2]\x7d") ∧
    ((fields.GreaterOrEqual (GoValue.num 0)).bind (fun a =>
        (fields.Less (GoValue.num 49)).map (fun b =>
          (MergeOperators [a, b]).marshalJSON))) =
      some (some "\x7b\"$gte\":0,\"$lt\":49\x7d") ∧
    ∀ (l1 l2 : List Comparison),
      (∀ c ∈ l2, c.value = none ∨ ∃ v, c.value = some v ∧ glen v.In = 0) →
      (mergeTarget (l1 ++ ⟨none⟩ :: l2)).In = some ["null"] := by
  refine ⟨rfl, rfl, fun l1 l2 h => ?_⟩
  rw [mergeTarget, List.foldl_append, List.foldl_cons]
  exact mergeFold_In_preserved l2 _ (by rw [mergeStep_In]) h

/-- Witness for the amended C7: a Less comparison followed by the zero-value
Comparison leaves the merged $in slot at the single element null. -/
theorem claim_C7_amended_merge_operators_witness :
    (∀ c ∈ ([] : List Comparison),
      c.value = none ∨ ∃ v, c.value = some v ∧ glen v.In = 0) ∧
    (mergeTarget
        ([⟨some { OpComparison.zero with Less := some "49" }⟩] ++
          ⟨none⟩ :: [])).In = some ["null"] :=
  ⟨by simp,
    (claim_C7_amended_merge_operators).2.2
      [⟨some { OpComparison.zero with Less := some "49" }⟩] [] (by simp)⟩

/-- C8 fails on the code: fields.Equal(nil) builds the Comparison with the
nil value pointer, and Comparison.MarshalJSON evaluates
c.value.normalize() — normalize dereferences its nil receiver, so marshalling
the zero-value Comparison (or Equal(nil)) panics instead of producing the
token null; a non-normalized comparison whose only clause is In = [null]
does produce null. -/
theorem claim_C8_zero_comparison_marshal_panics :
    fields.Equal GoValue.null = some ⟨none⟩ ∧
    Comparison.marshalJSON ⟨none⟩ = none ∧
    Comparison.marshalJSON
        ⟨some { OpComparison.zero with In := some ["null"] }⟩ = some "null" :=
  ⟨rfl, rfl, rfl⟩

/-- C9 fails as stated for FixedDuration: the exactly-zero fixed duration
formats as the bare prefix PT, not PT0S, because every component of
formatFixedDuration is emitted only when positive. -/
theorem claim_C9_counterexample :
    FixedDuration.marshalJSON 0 = "\"PT\"" ∧
    formatFixedDuration 0 = "PT" ∧
    ("\"PT\"" : String) ≠ "\"PT0S\"" :=
  ⟨rfl, rfl, by decide⟩

/-- C9 (amended): the zero values of the nullable duration variants encode to
the JSON token null; the non-nullable variants always encode a JSON string —
PT0S for the exactly-zero CalendarDuration, but the bare prefix PT for the
exactly-zero FixedDuration. -/
theorem claim_C9_amended_duration_zero_values :
    FixedDurationNullZero.marshalJSON 0 = "null" ∧
    CalendarDurationNullZero.marshalJSON ⟨0, 0⟩ = .ok "null" ∧
    CalendarDuration.marshalJSON ⟨0, 0⟩ = .ok "\"PT0S\"" ∧
    FixedDuration.marshalJSON 0 = "\"PT\"" ∧
    ∀ d : Int, FixedDuration.marshalJSON d = jsonQuote (formatFixedDuration d) :=
  ⟨rfl, rfl, rfl, rfl, fun _ => rfl⟩

end ClarifyGo
